/-
Verification of the traffic-simulation core against its specification.

The development shallow-embeds the C++ sources:
  * `src/parking.cpp`    — the `ParkingLot` admission resource,
  * `src/vehicle.cpp`    — vehicle actors, message emission, movement,
  * `src/controller.cpp` — the F11 phase loop and emergency preemption,
  * `src/visualizer.cpp` — the frame-reading loop.

POSIX semaphores become natural-number counters (`sem_trywait` succeeds iff
the counter is nonzero; `sem_wait` is modelled by an `Option` result that is
`none` while the caller would stay blocked).  The bitmaps become `List Bool`,
machine `int` counters become `Int`.  Each operation protected by the lot's
mutex is one atomic step, which is faithful because every mutation of the
bitmaps and counters in the C++ code happens inside `lock`/`unlock` pairs.
-/
import Mathlib

namespace TrafficSim

/-! ## List helpers: population count and first-fit scan -/
/-- Number of `true` entries of a bitmap (`popcount` in the specification). -/
def popcount : List Bool → Nat
  | [] => 0
  | b :: r => (if b then 1 else 0) + popcount r

/-- Index of the first `false` entry, if any: the first-fit linear scan
`for (i = 0; i < N; i++) if (!occupied[i]) ...` shared by `enterQueue` and
`waitForSpot` in `src/parking.cpp`. -/
def firstFree : List Bool → Option Nat
  | [] => none
  | b :: r => if b then (firstFree r).map (· + 1) else some 0

/-! ## ParkingLot (src/parking.cpp)

State of one `ParkingLot` object.  `spotSem` and `queueSem` are the values of
the counting semaphores `spots` and `queue`; the constructor initialises them
to the capacities and everything else to zero / all-false. -/
def PARKING_CAPACITY : Nat := 10

def PARKING_QUEUE_SIZE : Nat := 5

structure LotState where
  spotSem : Nat
  queueSem : Nat
  occupiedSpots : Int
  waitingCount : Int
  spotOccupied : List Bool
  queueSlotOccupied : List Bool
deriving DecidableEq, Repr

/-- Constructor `ParkingLot::ParkingLot()`. -/
def initialLot : LotState :=
  { spotSem := PARKING_CAPACITY
    queueSem := PARKING_QUEUE_SIZE
    occupiedSpots := 0
    waitingCount := 0
    spotOccupied := List.replicate PARKING_CAPACITY false
    queueSlotOccupied := List.replicate PARKING_QUEUE_SIZE false }

/-- Method `ParkingLot::enterQueue()`: `sem_trywait(&queue)` fails (returns -1,
state untouched) iff the semaphore is zero; on success `waitingCount++` and
the first-fit scan claims the lowest free queue slot. -/
def enterQueue (s : LotState) : Int × LotState :=
  if s.queueSem = 0 then (-1, s)
  else
    let s1 : LotState := { s with queueSem := s.queueSem - 1,
                                  waitingCount := s.waitingCount + 1 }
    match firstFree s1.queueSlotOccupied with
    | some i => ((i : Int), { s1 with queueSlotOccupied := s1.queueSlotOccupied.set i true })
    | none => (-1, s1)

/-- Method `ParkingLot::waitForSpot(queueIndex)`: `none` while `sem_wait(&spots)`
would block.  Once a spot token is acquired the function posts the queue
semaphore, decrements `waitingCount`, clears the caller's queue slot when the
index is in range, increments `occupiedSpots`, and claims the lowest free
spot. -/
def waitForSpot (queueIndex : Int) (s : LotState) : Option (Int × LotState) :=
  if s.spotSem = 0 then none
  else
    let s1 : LotState := { s with spotSem := s.spotSem - 1,
                                  queueSem := s.queueSem + 1,
                                  waitingCount := s.waitingCount - 1 }
    let s2 : LotState :=
      if 0 ≤ queueIndex ∧ queueIndex < (PARKING_QUEUE_SIZE : Int) then
        { s1 with queueSlotOccupied := s1.queueSlotOccupied.set queueIndex.toNat false }
      else s1
    let s3 : LotState := { s2 with occupiedSpots := s2.occupiedSpots + 1 }
    match firstFree s3.spotOccupied with
    | some i => some ((i : Int), { s3 with spotOccupied := s3.spotOccupied.set i true })
    | none => some (-1, s3)

/-- Method `ParkingLot::leave(spotIndex)`: the bitmap write is bounds-checked, the
decrement of `occupiedSpots` and the `sem_post(&spots)` are not. -/
def leave (spotIndex : Int) (s : LotState) : LotState :=
  let s1 : LotState :=
    if 0 ≤ spotIndex ∧ spotIndex < (PARKING_CAPACITY : Int) then
      { s with spotOccupied := s.spotOccupied.set spotIndex.toNat false }
    else s
  { s1 with occupiedSpots := s1.occupiedSpots - 1, spotSem := s1.spotSem + 1 }

/-- Getter `ParkingLot::getWaitingCount()`. -/
def getWaitingCount (s : LotState) : Int := s.waitingCount

/-- Getter `ParkingLot::getOccupiedCount()`. -/
def getOccupiedCount (s : LotState) : Int := s.occupiedSpots

/-! ## Operation sequences on a lot -/
inductive LotOp where
  | opEnterQueue : LotOp
  | opWaitForSpot (queueIndex : Int) : LotOp
  | opLeave (spotIndex : Int) : LotOp
deriving DecidableEq, Repr

/-- Effect of one operation on the lot.  A `waitForSpot` whose caller would
still be blocked on `sem_wait(&spots)` has not executed its body, so the
state is unchanged. -/
def lotStep (s : LotState) : LotOp → LotState
  | .opEnterQueue => (enterQueue s).2
  | .opWaitForSpot q =>
      match waitForSpot q s with
      | some (_, s') => s'
      | none => s
  | .opLeave i => leave i s

def runOps (s : LotState) (ops : List LotOp) : LotState := ops.foldl lotStep s

/-- Well-formed use of the lot, as the vehicle actors use it: `waitForSpot`
runs only once a spot token is available and only with a queue slot the
caller actually holds; `leave` releases only a currently held, in-range
spot. -/
def legalOp (s : LotState) : LotOp → Bool
  | .opEnterQueue => true
  | .opWaitForSpot q =>
      s.spotSem ≠ 0 && 0 ≤ q && q < (PARKING_QUEUE_SIZE : Int) &&
        s.queueSlotOccupied.getD q.toNat false
  | .opLeave i =>
      0 ≤ i && i < (PARKING_CAPACITY : Int) && s.spotOccupied.getD i.toNat false

def legalTrace (s : LotState) : List LotOp → Bool
  | [] => true
  | op :: rest => legalOp s op && legalTrace (lotStep s op) rest

/-- The lot's data-structure invariant: the counters mirror the bitmaps and
each semaphore counts the free entries of its bitmap. -/
def LotInv (s : LotState) : Prop :=
  s.spotOccupied.length = PARKING_CAPACITY ∧
  s.queueSlotOccupied.length = PARKING_QUEUE_SIZE ∧
  s.occupiedSpots = (popcount s.spotOccupied : Int) ∧
  s.waitingCount = (popcount s.queueSlotOccupied : Int) ∧
  s.spotSem + popcount s.spotOccupied = PARKING_CAPACITY ∧
  s.queueSem + popcount s.queueSlotOccupied = PARKING_QUEUE_SIZE

instance (s : LotState) : Decidable (LotInv s) := by
  unfold LotInv; infer_instance

/-! ## Claim C3: `enterQueue` is non-blocking, first-fit, rejects when full -/
/-- Default-valued form of the first-fit scan result. -/
def firstFreeD (l : List Bool) : Nat := (firstFree l).getD 0

/-- Iterated `enterQueue`: `n` consecutive calls, collecting the returned indices. -/
def enterQueueN : Nat → LotState → List Int × LotState
  | 0, s => ([], s)
  | n + 1, s =>
      let r := enterQueue s
      let rest := enterQueueN n r.2
      (r.1 :: rest.1, rest.2)

/-- The saturated-queue state reached after five `enterQueue` calls on a
fresh lot. -/
def fullQueueLot : LotState :=
  { spotSem := PARKING_CAPACITY
    queueSem := 0
    occupiedSpots := 0
    waitingCount := PARKING_QUEUE_SIZE
    spotOccupied := List.replicate PARKING_CAPACITY false
    queueSlotOccupied := List.replicate PARKING_QUEUE_SIZE true }

/-! ## Shared simulation types (src/simulation_types.h) -/
inductive VehicleType where
  | AMBULANCE | FIRETRUCK | BUS | CAR | BIKE | TRACTOR
deriving DecidableEq, Repr

inductive TrafficLightState where
  | RED | GREEN
deriving DecidableEq, Repr

def MSG_MAGIC : Nat := 0xCAFEBABE

/-- Frame size `sizeof(PipeMessage)`.  The exact ABI value is irrelevant to the claims:
what matters is that every writer emits exactly this many bytes and the
reader accepts a frame only when the byte count read equals it. -/
def msgSize : Nat := 56

/-- Payload `VehicleState` of a `VEHICLE_UPDATE` frame.  Coordinates
are modelled as rationals; the frame machinery only copies them verbatim. -/
structure VehicleState where
  id : Int
  x : ℚ
  y : ℚ
  colorR : Int
  colorG : Int
  colorB : Int
  isActive : Bool
  isParked : Bool
  isInQueue : Bool
  queueIndex : Int
  isLeftParking : Bool
  vtype : VehicleType
deriving DecidableEq, Repr

structure TrafficLightUpdate where
  intersectionId : Int
  state : TrafficLightState
deriving DecidableEq, Repr

structure ParkingUpdate where
  intersectionId : Int
  waitingCount : Int
deriving DecidableEq, Repr

/-- The `type` tag together with the active member of the `data` union:
every writer in the program sets the tag to match the member it fills. -/
inductive MsgPayload where
  | vehicle (v : VehicleState)
  | light (u : TrafficLightUpdate)
  | parking (p : ParkingUpdate)
deriving DecidableEq, Repr

/-- One `write()`/`read()` unit on a telemetry pipe: the number of bytes
transferred, the `magic` field, and the tagged payload. -/
structure RawFrame where
  len : Nat
  magic : Nat
  payload : MsgPayload
deriving DecidableEq, Repr

/-! ## Visualizer frame-reading loop (src/visualizer.cpp lines 147–177) -/
/-- Visualizer state fed by one input pipe: the shared vehicle map, that
pipe's light state and its parking-queue counter. -/
structure VisState where
  vehicles : List (Int × VehicleState)
  light : TrafficLightState
  parkingQueueCount : Int
deriving DecidableEq, Repr

/-- Map assignment `vehicles[msg.data.vehicle.id] = msg.data.vehicle`. -/
def storeVehicle (m : List (Int × VehicleState)) (v : VehicleState) :
    List (Int × VehicleState) :=
  (v.id, v) :: m.filter (fun p => p.1 ≠ v.id)

def lookupVehicle (m : List (Int × VehicleState)) (i : Int) : Option VehicleState :=
  (m.find? (fun p => p.1 == i)).map (·.2)

/-- One iteration of the visualizer's read loop on the pipe serving
intersection `sideId` (10 for F10, 11 for F11): the frame is trusted only
when the read returned exactly `sizeof(msg)` bytes and the magic matches;
otherwise it is discarded whole. -/
def processFrame (sideId : Int) (st : VisState) (f : RawFrame) : VisState :=
  if f.len = msgSize ∧ f.magic = MSG_MAGIC then
    match f.payload with
    | .vehicle v => { st with vehicles := storeVehicle st.vehicles v }
    | .light u => { st with light := u.state }
    | .parking p =>
        if p.intersectionId = sideId then
          { st with parkingQueueCount := p.waitingCount }
        else st
  else st

def processStream (sideId : Int) (st : VisState) (fs : List RawFrame) : VisState :=
  fs.foldl (processFrame sideId) st

/-! ## Vehicle actor (src/vehicle.cpp) -/
/-- The fields of a `Vehicle` object that its own actor thread mutates and
`sendUpdate` reads (the `parkingLot` pointer is passed separately as the
pointed-to lot's state at the moment of the call). -/
structure VehicleM where
  id : Int
  vtype : VehicleType
  x : ℚ
  y : ℚ
  active : Bool
  isInQueue : Bool
  queueIndex : Int
  isLeftParking : Bool
deriving DecidableEq, Repr

/-- Method `Vehicle::getColor`. -/
def getColor : VehicleType → Int × Int × Int
  | .AMBULANCE => (255, 255, 255)
  | .FIRETRUCK => (255, 0, 0)
  | .BUS => (0, 0, 255)
  | .CAR => (0, 255, 0)
  | .BIKE => (255, 255, 0)
  | .TRACTOR => (100, 100, 100)

/-- The `VEHICLE_UPDATE` payload `Vehicle::sendUpdate` fills from the
vehicle's fields. -/
def mkVehicleState (v : VehicleM) (parked : Bool) : VehicleState :=
  { id := v.id
    x := v.x
    y := v.y
    colorR := (getColor v.vtype).1
    colorG := (getColor v.vtype).2.1
    colorB := (getColor v.vtype).2.2
    isActive := v.active
    isParked := parked
    isInQueue := v.isInQueue
    queueIndex := v.queueIndex
    isLeftParking := v.isLeftParking
    vtype := v.vtype }

/-- Method `Vehicle::sendUpdate(parked)`: one `VEHICLE_UPDATE` frame, followed —
when the vehicle holds a parking-lot reference — by one `PARKING_UPDATE`
frame carrying `isLeftParking ? 11 : 10` and the lot's current
`waitingCount`. -/
def sendUpdate (v : VehicleM) (lot : Option LotState) (parked : Bool) :
    List RawFrame :=
  { len := msgSize, magic := MSG_MAGIC, payload := .vehicle (mkVehicleState v parked) } ::
    (match lot with
     | some l =>
         [{ len := msgSize, magic := MSG_MAGIC,
            payload := .parking { intersectionId := if v.isLeftParking then 11 else 10,
                                  waitingCount := getWaitingCount l } }]
     | none => [])

/-- Park-eligibility test shared by `vehicleThreadFunc` (line 220) and
`commuterThreadFunc` (line 125) in `src/vehicle.cpp`:
`(v->parkingLot != nullptr) && (type == CAR || type == BIKE)`. -/
def willPark (hasLot : Bool) (t : VehicleType) : Bool :=
  hasLot && (t == .CAR || t == .BIKE)

/-- Park-attempt guard of the direct-route (local) actor `vehicleThreadFunc`
(src/vehicle.cpp line 223): plain `if (willPark)`.  The actor's random draw
is passed as `r` to expose that the guard never consults it. -/
def localParkAttempt (hasLot : Bool) (t : VehicleType) (r : Nat) : Bool :=
  willPark hasLot t

/-- Park-attempt guard of the commuter actor `commuterThreadFunc`
(src/vehicle.cpp line 128): `if (willPark)`. -/
def commuterParkAttempt (hasLot : Bool) (t : VehicleType) : Bool :=
  willPark hasLot t

/-- Modelled from the spec: the park decision the specification describes
for non-priority direct-route actors — eligibility "further gated by a
random choice" (`rand() % 2 == 0`).  Such a gate exists only in the legacy
monolith `src/simulation.cpp` (line 506), not in `src/vehicle.cpp`, which
the modular build links and the claim cites. -/
def localParkAttemptSpec (hasLot : Bool) (t : VehicleType) (r : Nat) : Bool :=
  willPark hasLot t && (r % 2 == 0)

/-! ## Claim C7: frame round-trip and discard -/
/-- The frame `Vehicle::sendUpdate` writes for a `VEHICLE_UPDATE`: full
size, intact magic. -/
def writeVehicleFrame (vs : VehicleState) : RawFrame :=
  { len := msgSize, magic := MSG_MAGIC, payload := .vehicle vs }

/-! ## Claim C9: queue-membership coherence along the actor lifecycle

The actor thread functions in `src/vehicle.cpp` are straight-line phase
sequences whose movement loops call `sendUpdate` once per tick.  The traces
below record the `(isInQueue, queueIndex, parked, active)` quadruple the
vehicle carries at each `sendUpdate` call; the loop iteration counts (which
depend on geometry) are arbitrary parameters.  Only the vehicle's own
thread ever writes these fields, so the per-thread sequential trace is
faithful. -/
structure QueueFields where
  inQueue : Bool
  queueIdx : Int
  parkedF : Bool
  activeF : Bool
deriving DecidableEq, Repr

/-- Fields during ordinary driving: not queued, sentinel index, on the
road. -/
def cruising : QueueFields := ⟨false, -1, false, true⟩

/-- Emission states of the park phase shared verbatim by
`commuterThreadFunc` (Phase 5) and `vehicleThreadFunc` (Phase 3): drive to
the queue entrance, call `enterQueue`; on success set both fields, emit
while driving to the queue box plus once standing there, block in
`waitForSpot`, reset both fields, drive to the spot, emit one parked frame,
dwell, `leave`, drive back. -/
def parkPhaseStates (lot : LotState) (mApproach mQueueBox mToSpot mReturn : Nat) :
    List QueueFields :=
  let q := (enterQueue lot).1
  List.replicate mApproach cruising ++
    (if q ≠ -1 then
      List.replicate (mQueueBox + 1) ⟨true, q, false, true⟩ ++
        List.replicate mToSpot cruising ++
        [⟨false, -1, true, true⟩] ++
        List.replicate mReturn cruising
    else [])

/-- Emission states of the direct-route actor `vehicleThreadFunc`: drive to
the stop line (emitting), poll the gate (no emission), optionally park,
drive to the end, final inactive frame. -/
def localActorStates (t : VehicleType) (hasLot : Bool) (lot : LotState)
    (mStop mApproach mQueueBox mToSpot mReturn mEnd : Nat) : List QueueFields :=
  List.replicate mStop cruising ++
    (if willPark hasLot t then
      parkPhaseStates lot mApproach mQueueBox mToSpot mReturn
    else []) ++
    List.replicate mEnd cruising ++ [⟨false, -1, false, false⟩]

/-- Emission states of the commuter actor `commuterThreadFunc`: drive to the
F11 stop line, pause, drive to F10 (both emitting), poll F10's gate
(emitting each poll), optionally park, exit left, final inactive frame. -/
def commuterActorStates (t : VehicleType) (hasLot : Bool) (lot : LotState)
    (mF11 mF10 wGate mApproach mQueueBox mToSpot mReturn mExit : Nat) :
    List QueueFields :=
  List.replicate mF11 cruising ++ List.replicate mF10 cruising ++
    List.replicate wGate cruising ++
    (if willPark hasLot t then
      parkPhaseStates lot mApproach mQueueBox mToSpot mReturn
    else []) ++
    List.replicate mExit cruising ++ [⟨false, -1, false, false⟩]

/-- The coherence property claimed for the queue-membership fields:
`isInQueue` iff `queueIndex ≠ -1`, and a queued frame carries exactly the
index the successful `enterQueue` call returned, which lies in `0..4`. -/
def fieldsCoherent (lot : LotState) (f : QueueFields) : Prop :=
  (f.inQueue = true ↔ f.queueIdx ≠ -1) ∧
  (f.inQueue = true → 0 ≤ f.queueIdx ∧ f.queueIdx < (PARKING_QUEUE_SIZE : Int) ∧
    f.queueIdx = (enterQueue lot).1)

/-! ## F11 controller: phase loop and emergency preemption
(src/controller.cpp lines 267–365)

One loop iteration is modelled with the command channel empty (commands are
orthogonal to the coordination protocol).  The inbound coordination pipe is
a FIFO buffer; each non-blocking `read` consumes at most one message.  The
5-second preemption holds read nothing: whatever arrives while a hold is in
progress stays in the pipe. -/
inductive CoordMsg where
  | emergencyApproaching | clearIntersection
deriving DecidableEq, Repr

/-- Observable actions of one loop iteration: `lightGreen`/`lightRed` are
gate writes published as `LIGHT_UPDATE` frames, `hold5` is the fixed
`sleep(5)` with the gate GREEN, `redSlice` one 0.5 s polling slice of the
RED hold, `parkingUpdate` the end-of-GREEN parking telemetry. -/
inductive F11Event where
  | lightGreen | lightRed | hold5 | redSlice | parkingUpdate
deriving DecidableEq, Repr

/-- The six polled slices of the RED hold (lines 328–343): each slice
sleeps, then drains one coordination message; an `EMERGENCY_APPROACHING`
forces GREEN, holds 5 s and breaks out of the RED hold; any other message
is consumed silently. -/
def redSlices : Nat → List CoordMsg → List F11Event × List CoordMsg
  | 0, buf => ([], buf)
  | n + 1, buf =>
      match buf with
      | [] =>
          let rest := redSlices n []
          (.redSlice :: rest.1, rest.2)
      | m :: tail =>
          if m = .emergencyApproaching then
            ([.redSlice, .lightGreen, .hold5], tail)
          else
            let rest := redSlices n tail
            (.redSlice :: rest.1, rest.2)

/-- One iteration of `trafficControllerF11`'s main loop: read one
coordination message (an emergency forces GREEN, is published, and holds
5 s; `emergencyMode` is reset before the `if (!emergencyMode)` test, so the
normal phase always follows), then the RED phase with six polled slices,
then the GREEN phase and the end-of-GREEN parking update. -/
def f11Iter (buf : List CoordMsg) : List F11Event × List CoordMsg :=
  let pre : List F11Event × List CoordMsg :=
    match buf with
    | .emergencyApproaching :: tail => ([.lightGreen, .hold5], tail)
    | .clearIntersection :: tail => ([], tail)
    | [] => ([], [])
  let red := redSlices 6 pre.2
  (pre.1 ++ [.lightRed] ++ red.1 ++ [.lightGreen, .parkingUpdate], red.2)

def f11Run : Nat → List CoordMsg → List F11Event
  | 0, _ => []
  | n + 1, buf => (f11Iter buf).1 ++ f11Run n (f11Iter buf).2

/-- Number of `hold5` events in a trace. -/
def countHold : List F11Event → Nat
  | [] => 0
  | e :: r => (if e = .hold5 then 1 else 0) + countHold r

/-- Number of `EMERGENCY_APPROACHING` messages in a channel buffer. -/
def countEmergency : List CoordMsg → Nat
  | [] => 0
  | m :: r => (if m = .emergencyApproaching then 1 else 0) + countEmergency r

/-! ## Movement primitive (src/vehicle.cpp lines 69–84)

`moveTowards` is modelled over the real numbers (the idealisation of the
`float` arithmetic): position and speed are exact reals and `std::sqrt` is
`Real.sqrt`. -/
noncomputable def moveTowards (currX currY targetX targetY speed : ℝ) :
    ℝ × ℝ × Bool :=
  let dx := targetX - currX
  let dy := targetY - currY
  let dist := Real.sqrt (dx * dx + dy * dy)
  if dist < speed then (targetX, targetY, true)
  else
    let ratio := speed / dist
    (currX + dx * ratio, currY + dy * ratio, false)

/-- Straight-line distance, as `moveTowards` computes it. -/
noncomputable def euclid (x1 y1 x2 y2 : ℝ) : ℝ :=
  Real.sqrt ((x2 - x1) * (x2 - x1) + (y2 - y1) * (y2 - y1))

theorem popcount_le_length (l : List Bool) : popcount l ≤ l.length := by
  induction l with
  | nil => simp [popcount]
  | cons b r ih =>
    simp only [popcount, List.length_cons]
    cases b <;> simp <;> omega

theorem popcount_set_true (l : List Bool) (i : Nat) (hi : i < l.length)
    (h : l.getD i false = false) :
    popcount (l.set i true) = popcount l + 1 := by
  induction l generalizing i with
  | nil => simp at hi
  | cons b r ih =>
    cases i with
    | zero =>
      simp only [List.getD_cons_zero] at h
      subst h
      simp [popcount, Nat.add_comm]
    | succ j =>
      simp only [List.getD_cons_succ] at h
      simp only [List.length_cons, Nat.succ_lt_succ_iff] at hi
      simp only [List.set_cons_succ, popcount, ih j hi h]
      omega

theorem popcount_set_false (l : List Bool) (i : Nat) (hi : i < l.length)
    (h : l.getD i false = true) :
    popcount l = popcount (l.set i false) + 1 := by
  induction l generalizing i with
  | nil => simp at hi
  | cons b r ih =>
    cases i with
    | zero =>
      simp only [List.getD_cons_zero] at h
      subst h
      simp [popcount, Nat.add_comm]
    | succ j =>
      simp only [List.getD_cons_succ] at h
      simp only [List.length_cons, Nat.succ_lt_succ_iff] at hi
      simp only [List.set_cons_succ, popcount, ih j hi h]
      omega

theorem firstFree_of_popcount_lt (l : List Bool) (h : popcount l < l.length) :
    ∃ i, firstFree l = some i := by
  induction l with
  | nil => simp at h
  | cons b r ih =>
    cases b with
    | false => exact ⟨0, rfl⟩
    | true =>
      simp [popcount] at h
      obtain ⟨i, hi⟩ := ih (by omega)
      exact ⟨i + 1, by simp [firstFree, hi]⟩

theorem firstFree_spec (l : List Bool) (i : Nat) (h : firstFree l = some i) :
    i < l.length ∧ l.getD i false = false ∧ ∀ j, j < i → l.getD j false = true := by
  induction l generalizing i with
  | nil => simp [firstFree] at h
  | cons b r ih =>
    cases b with
    | false =>
      simp only [firstFree, if_neg Bool.false_ne_true] at h
      simp only [Option.some.injEq] at h
      subst h
      exact ⟨by simp, by simp, fun j hj => by omega⟩
    | true =>
      have hmap : firstFree (true :: r) = (firstFree r).map (· + 1) := rfl
      rw [hmap] at h
      cases hr : firstFree r with
      | none => rw [hr] at h; simp at h
      | some i' =>
        rw [hr] at h
        simp only [Option.map_some', Option.some.injEq] at h
        subst h
        obtain ⟨h1, h2, h3⟩ := ih i' hr
        refine ⟨by simpa using Nat.succ_lt_succ h1, by simpa using h2, ?_⟩
        intro j hj
        cases j with
        | zero => simp
        | succ k => simpa using h3 k (by omega)

theorem lotInv_enterQueue (s : LotState) (h : LotInv s) :
    LotInv (enterQueue s).2 := by
  obtain ⟨h1, h2, h3, h4, h5, h6⟩ := h
  unfold enterQueue
  by_cases hq : s.queueSem = 0
  · simpa [hq] using ⟨h1, h2, h3, h4, h5, h6⟩
  · simp only [if_neg hq]
    have hpop : popcount s.queueSlotOccupied < s.queueSlotOccupied.length := by
      rw [h2]; omega
    obtain ⟨i, hi⟩ := firstFree_of_popcount_lt _ hpop
    obtain ⟨hlt, hfalse, _⟩ := firstFree_spec _ _ hi
    simp only [hi]
    refine ⟨by simpa using h1, by simpa using h2, by simpa using h3, ?_, by simpa using h5, ?_⟩
    · simp only [popcount_set_true _ i hlt hfalse, h4]
      push_cast
      ring
    · simp only [popcount_set_true _ i hlt hfalse]
      omega

theorem lotInv_waitForSpot (s : LotState) (q : Int) (h : LotInv s)
    (hleg : legalOp s (.opWaitForSpot q) = true) :
    LotInv (lotStep s (.opWaitForSpot q)) := by
  obtain ⟨h1, h2, h3, h4, h5, h6⟩ := h
  simp only [legalOp, Bool.and_eq_true, decide_eq_true_eq] at hleg
  obtain ⟨⟨⟨hsem, hq0⟩, hq5⟩, hheld⟩ := hleg
  have hqrange : 0 ≤ q ∧ q < (PARKING_QUEUE_SIZE : Int) := ⟨hq0, hq5⟩
  have hqlt : q.toNat < s.queueSlotOccupied.length := by
    rw [h2]; unfold PARKING_QUEUE_SIZE at hq5 ⊢; omega
  simp only [lotStep, waitForSpot, if_neg hsem, if_pos hqrange]
  have hspot : popcount s.spotOccupied < s.spotOccupied.length := by
    rw [h1]; omega
  obtain ⟨i, hi⟩ := firstFree_of_popcount_lt _ hspot
  obtain ⟨hlt, hfalse, _⟩ := firstFree_spec _ _ hi
  simp only [hi]
  have hqpop : popcount s.queueSlotOccupied
      = popcount (s.queueSlotOccupied.set q.toNat false) + 1 :=
    popcount_set_false _ _ hqlt hheld
  refine ⟨by simpa using h1, by simpa using h2, ?_, ?_, ?_, ?_⟩
  · simp only [popcount_set_true _ i hlt hfalse, h3]
    push_cast
    ring
  · simp only [h4, hqpop]
    push_cast
    ring
  · dsimp only
    simp only [popcount_set_true _ i hlt hfalse]
    omega
  · dsimp only
    simp only [hqpop] at h6
    omega

theorem lotInv_leave (s : LotState) (i : Int) (h : LotInv s)
    (hleg : legalOp s (.opLeave i) = true) :
    LotInv (leave i s) := by
  obtain ⟨h1, h2, h3, h4, h5, h6⟩ := h
  simp only [legalOp, Bool.and_eq_true, decide_eq_true_eq] at hleg
  obtain ⟨⟨hi0, hi10⟩, hheld⟩ := hleg
  have hirange : 0 ≤ i ∧ i < (PARKING_CAPACITY : Int) := ⟨hi0, hi10⟩
  have hilt : i.toNat < s.spotOccupied.length := by
    rw [h1]; unfold PARKING_CAPACITY at hi10 ⊢; omega
  simp only [leave, if_pos hirange]
  have hpop : popcount s.spotOccupied
      = popcount (s.spotOccupied.set i.toNat false) + 1 :=
    popcount_set_false _ _ hilt hheld
  refine ⟨by simpa using h1, by simpa using h2, ?_, by simpa using h4, ?_, by simpa using h6⟩
  · simp only [h3, hpop]
    push_cast
    ring
  · dsimp only
    simp only [hpop] at h5
    omega

theorem lotInv_step (s : LotState) (op : LotOp) (h : LotInv s)
    (hleg : legalOp s op = true) : LotInv (lotStep s op) := by
  cases op with
  | opEnterQueue => exact lotInv_enterQueue s h
  | opWaitForSpot q => exact lotInv_waitForSpot s q h hleg
  | opLeave i => exact lotInv_leave s i h hleg

theorem lotInv_runOps (s : LotState) (ops : List LotOp) (h : LotInv s)
    (hleg : legalTrace s ops = true) : LotInv (runOps s ops) := by
  induction ops generalizing s with
  | nil => simpa [runOps] using h
  | cons op rest ih =>
    simp only [legalTrace, Bool.and_eq_true] at hleg
    simpa [runOps, List.foldl_cons] using
      ih (lotStep s op) (lotInv_step s op h hleg.1) hleg.2

theorem lotInv_bounds (s : LotState) (h : LotInv s) :
    0 ≤ s.occupiedSpots ∧ s.occupiedSpots ≤ (PARKING_CAPACITY : Int) ∧
    0 ≤ s.waitingCount ∧ s.waitingCount ≤ (PARKING_QUEUE_SIZE : Int) := by
  obtain ⟨h1, h2, h3, h4, _, _⟩ := h
  have hs := popcount_le_length s.spotOccupied
  have hq := popcount_le_length s.queueSlotOccupied
  rw [h1] at hs
  rw [h2] at hq
  unfold PARKING_CAPACITY at hs ⊢
  unfold PARKING_QUEUE_SIZE at hq ⊢
  omega

/-! ## Claim C1: `ParkingLot::leave` with an out-of-range index -/
/-- C1 counterexample: calling `leave` with the out-of-range index `-1` on a
fresh lot does NOT leave the lot's state unchanged: `occupiedSpots` drops to
`-1` and the `spots` semaphore is posted to `11`, contradicting the claim
that an out-of-range release is a full no-op.  Only the bitmap write is
bounds-checked in `src/parking.cpp` lines 73–81. -/
theorem c1_leave_out_of_range_counterexample :
    leave (-1) initialLot ≠ initialLot ∧
    (leave (-1) initialLot).occupiedSpots = -1 ∧
    (leave (-1) initialLot).spotSem = PARKING_CAPACITY + 1 ∧
    (leave (-1) initialLot).spotOccupied = initialLot.spotOccupied := by
  decide

/-- C1 (amended): `leave` with an out-of-range index never faults and leaves
the spot bitmap (and all queue state) unchanged, but it still decrements
`occupiedSpots` and posts the `spots` semaphore — only the bitmap write is
bounds-checked.  A call with an in-range index additionally clears that
bitmap entry. -/
theorem c1_leave_out_of_range (s : LotState) (i : Int) :
    (¬ (0 ≤ i ∧ i < (PARKING_CAPACITY : Int)) →
      (leave i s).spotOccupied = s.spotOccupied ∧
      (leave i s).queueSlotOccupied = s.queueSlotOccupied ∧
      (leave i s).waitingCount = s.waitingCount ∧
      (leave i s).queueSem = s.queueSem ∧
      (leave i s).occupiedSpots = s.occupiedSpots - 1 ∧
      (leave i s).spotSem = s.spotSem + 1) ∧
    ((0 ≤ i ∧ i < (PARKING_CAPACITY : Int)) →
      (leave i s).spotOccupied = s.spotOccupied.set i.toNat false ∧
      (leave i s).occupiedSpots = s.occupiedSpots - 1 ∧
      (leave i s).spotSem = s.spotSem + 1) := by
  constructor
  · intro h
    simp [leave, if_neg h]
  · intro h
    simp [leave, if_pos h]

/-- Witness for C1 at the concrete out-of-range index `10` on a fresh lot. -/
theorem c1_leave_out_of_range_witness :
    (leave 10 initialLot).spotOccupied = initialLot.spotOccupied ∧
    (leave 10 initialLot).occupiedSpots = initialLot.occupiedSpots - 1 ∧
    (leave 10 initialLot).spotSem = initialLot.spotSem + 1 := by
  have h := (c1_leave_out_of_range initialLot 10).1 (by decide)
  exact ⟨h.1, h.2.2.2.2.1, h.2.2.2.2.2⟩

/-! ## Claim C2: the counter/bitmap invariant -/
/-- C2 counterexample: the invariant does not hold after EVERY sequence of
operations — the single-operation sequence `leave 0` applied to a fresh lot
drives `occupiedSpots` to `-1 < 0` while the spot bitmap stays all-false, so
both `0 ≤ occupiedSpots` and `occupiedSpots = popcount(spot bitmap)` fail. -/
theorem c2_invariant_counterexample :
    (runOps initialLot [.opLeave 0]).occupiedSpots < 0 ∧
    popcount (runOps initialLot [.opLeave 0]).spotOccupied = 0 ∧
    ¬ LotInv (runOps initialLot [.opLeave 0]) := by
  decide

/-- C2 (amended): for every lot state satisfying the invariant and every
WELL-FORMED sequence of `enterQueue` / `waitForSpot` / `leave` operations
(each `waitForSpot` runs with an available spot token and a held queue slot,
each `leave` releases a held in-range spot — which is how the vehicle actors
use the lot), the invariant holds after the sequence: `occupiedSpots` equals
the number of `true` entries of the spot bitmap, `waitingCount` equals the
number of `true` entries of the queue bitmap, `0 ≤ occupiedSpots ≤ 10` and
`0 ≤ waitingCount ≤ 5`. -/
theorem c2_invariant_legal_traces (s : LotState) (ops : List LotOp)
    (h : LotInv s) (hleg : legalTrace s ops = true) :
    LotInv (runOps s ops) ∧
    (runOps s ops).occupiedSpots = (popcount (runOps s ops).spotOccupied : Int) ∧
    (runOps s ops).waitingCount = (popcount (runOps s ops).queueSlotOccupied : Int) ∧
    0 ≤ (runOps s ops).occupiedSpots ∧
    (runOps s ops).occupiedSpots ≤ (PARKING_CAPACITY : Int) ∧
    0 ≤ (runOps s ops).waitingCount ∧
    (runOps s ops).waitingCount ≤ (PARKING_QUEUE_SIZE : Int) := by
  have hInv := lotInv_runOps s ops h hleg
  have hB := lotInv_bounds _ hInv
  exact ⟨hInv, hInv.2.2.1, hInv.2.2.2.1, hB.1, hB.2.1, hB.2.2.1, hB.2.2.2⟩

/-- Witness for C2: a complete enter-wait-leave cycle from the fresh lot. -/
theorem c2_invariant_legal_traces_witness :
    LotInv (runOps initialLot [.opEnterQueue, .opWaitForSpot 0, .opLeave 0]) ∧
    0 ≤ (runOps initialLot [.opEnterQueue, .opWaitForSpot 0, .opLeave 0]).occupiedSpots := by
  have h := c2_invariant_legal_traces initialLot
    [.opEnterQueue, .opWaitForSpot 0, .opLeave 0] (by decide) (by decide)
  exact ⟨h.1, h.2.2.2.1⟩

theorem enterQueue_of_queueSem_zero (s : LotState) (h : s.queueSem = 0) :
    enterQueue s = (-1, s) := by
  simp [enterQueue, h]

theorem enterQueueN_of_queueSem_zero (m : Nat) (s : LotState) (h : s.queueSem = 0) :
    enterQueueN m s = (List.replicate m (-1), s) := by
  induction m with
  | zero => simp [enterQueueN]
  | succ n ih =>
    simp [enterQueueN, enterQueue_of_queueSem_zero s h, ih, List.replicate_succ]

theorem enterQueueN_add (a b : Nat) (s : LotState) :
    enterQueueN (a + b) s =
      ((enterQueueN a s).1 ++ (enterQueueN b (enterQueueN a s).2).1,
        (enterQueueN b (enterQueueN a s).2).2) := by
  induction a generalizing s with
  | zero => simp [enterQueueN]
  | succ n ih =>
    have hsucc : n + 1 + b = (n + b) + 1 := by omega
    rw [hsucc]
    simp only [enterQueueN, ih]
    simp

theorem countP_replicate (p : Int → Bool) (m : Nat) (a : Int) :
    (List.replicate m a).countP p = if p a then m else 0 := by
  induction m with
  | zero => simp
  | succ n ih =>
    simp only [List.replicate_succ, List.countP_cons, ih]
    by_cases h : p a <;> simp [h]

theorem enterQueueN_five_initial :
    enterQueueN 5 initialLot = ([0, 1, 2, 3, 4], fullQueueLot) := by
  decide

/-- C3: `enterQueue` never blocks.  When all five queue slots are taken it
returns the sentinel `-1` and leaves the lot unchanged; otherwise it
increments `waitingCount`, claims exactly the lowest free queue slot
(first-fit: that slot is free and every lower slot is taken) and returns its
index, which lies in `0..4`.  Consequently, `n > 5` consecutive calls on a
fresh lot return `[0, 1, 2, 3, 4]` followed by `n - 5` rejections: exactly
five calls return a non-negative index and the other `n - 5` return `-1`. -/
theorem c3_enterQueue_nonblocking (s : LotState) (n : Nat)
    (hInv : LotInv s) (hn : 5 < n) :
    (popcount s.queueSlotOccupied = PARKING_QUEUE_SIZE → enterQueue s = (-1, s)) ∧
    (popcount s.queueSlotOccupied < PARKING_QUEUE_SIZE →
      firstFree s.queueSlotOccupied = some (firstFreeD s.queueSlotOccupied) ∧
      firstFreeD s.queueSlotOccupied < PARKING_QUEUE_SIZE ∧
      s.queueSlotOccupied.getD (firstFreeD s.queueSlotOccupied) false = false ∧
      (∀ j, j < firstFreeD s.queueSlotOccupied →
        s.queueSlotOccupied.getD j false = true) ∧
      enterQueue s = ((firstFreeD s.queueSlotOccupied : Int),
        { s with queueSem := s.queueSem - 1,
                 waitingCount := s.waitingCount + 1,
                 queueSlotOccupied :=
                   s.queueSlotOccupied.set (firstFreeD s.queueSlotOccupied) true })) ∧
    ((enterQueueN n initialLot).1 =
        ([0, 1, 2, 3, 4] : List Int) ++ List.replicate (n - 5) (-1) ∧
      (enterQueueN n initialLot).1.countP (fun r => decide (0 ≤ r)) = 5 ∧
      (enterQueueN n initialLot).1.count (-1) = n - 5) := by
  obtain ⟨h1, h2, h3, h4, h5, h6⟩ := hInv
  refine ⟨?_, ?_, ?_⟩
  · intro hfull
    exact enterQueue_of_queueSem_zero s (by omega)
  · intro hfree
    have hsem : ¬ s.queueSem = 0 := by omega
    have hpop : popcount s.queueSlotOccupied < s.queueSlotOccupied.length := by
      rw [h2]; exact hfree
    obtain ⟨i, hi⟩ := firstFree_of_popcount_lt _ hpop
    have hD : firstFreeD s.queueSlotOccupied = i := by
      simp [firstFreeD, hi]
    obtain ⟨hlt, hfalse, hlow⟩ := firstFree_spec _ _ hi
    rw [hD]
    refine ⟨hi, by rw [← h2]; exact hlt, hfalse, hlow, ?_⟩
    simp [enterQueue, if_neg hsem, hi]
  · have hlist : (enterQueueN n initialLot).1 =
        ([0, 1, 2, 3, 4] : List Int) ++ List.replicate (n - 5) (-1) := by
      have hsplit : n = 5 + (n - 5) := by omega
      have hrw : enterQueueN n initialLot = enterQueueN (5 + (n - 5)) initialLot := by
        rw [← hsplit]
      rw [hrw, enterQueueN_add, enterQueueN_five_initial]
      rw [show (([0, 1, 2, 3, 4] : List Int), fullQueueLot).2 = fullQueueLot from rfl]
      rw [enterQueueN_of_queueSem_zero (n - 5) fullQueueLot rfl]
    refine ⟨hlist, ?_, ?_⟩
    · rw [hlist, List.countP_append, countP_replicate]
      have hc1 : (([0, 1, 2, 3, 4] : List Int).countP (fun r => decide (0 ≤ r))) = 5 := by
        decide
      have hc2 : (decide ((0 : Int) ≤ -1)) = false := by decide
      rw [hc1, hc2]
      simp
    · rw [hlist, List.count_append]
      have hrep : (List.replicate (n - 5) (-1 : Int)).count (-1) = n - 5 := by
        induction (n - 5) with
        | zero => simp
        | succ k ih => simp [List.replicate_succ, List.count_cons, ih]
      have hc3 : (([0, 1, 2, 3, 4] : List Int).count (-1)) = 0 := by decide
      rw [hrep, hc3]
      omega

/-- Witness for C3 at `n = 7` on a fresh lot, whose queue has a free slot. -/
theorem c3_enterQueue_nonblocking_witness :
    (popcount initialLot.queueSlotOccupied < PARKING_QUEUE_SIZE →
      firstFree initialLot.queueSlotOccupied
        = some (firstFreeD initialLot.queueSlotOccupied)) ∧
    (enterQueueN 7 initialLot).1 =
      ([0, 1, 2, 3, 4] : List Int) ++ List.replicate 2 (-1) := by
  have h := c3_enterQueue_nonblocking initialLot 7 (by decide) (by decide)
  exact ⟨fun hf => (h.2.1 hf).1, h.2.2.1⟩

/-! ## Claim C4: the state changes performed by `waitForSpot` -/
/-- C4: `waitForSpot(queueIndex)` called with a held in-range queue slot on
a lot satisfying the invariant.  While no spot token is available the caller
stays blocked and NOTHING changes — in particular the queue slot is released
only at the moment a spot is granted, never before the spot semaphore is
acquired.  On acquisition it performs exactly these changes atomically: the
queue semaphore is posted and the caller's queue bitmap entry cleared, the
`waitingCount` is decremented, `occupiedSpots` is incremented, the lowest
free spot is marked occupied, and its index is returned. -/
theorem c4_waitForSpot_changes (s : LotState) (q : Int) (hInv : LotInv s)
    (hq : 0 ≤ q ∧ q < (PARKING_QUEUE_SIZE : Int))
    (hheld : s.queueSlotOccupied.getD q.toNat false = true) :
    (s.spotSem = 0 → waitForSpot q s = none) ∧
    (s.spotSem ≠ 0 →
      firstFree s.spotOccupied = some (firstFreeD s.spotOccupied) ∧
      waitForSpot q s = some ((firstFreeD s.spotOccupied : Int),
        { spotSem := s.spotSem - 1
          queueSem := s.queueSem + 1
          occupiedSpots := s.occupiedSpots + 1
          waitingCount := s.waitingCount - 1
          spotOccupied := s.spotOccupied.set (firstFreeD s.spotOccupied) true
          queueSlotOccupied := s.queueSlotOccupied.set q.toNat false })) := by
  obtain ⟨h1, h2, h3, h4, h5, h6⟩ := hInv
  constructor
  · intro hzero
    simp [waitForSpot, hzero]
  · intro hsem
    have hpop : popcount s.spotOccupied < s.spotOccupied.length := by
      rw [h1]; omega
    obtain ⟨i, hi⟩ := firstFree_of_popcount_lt _ hpop
    have hD : firstFreeD s.spotOccupied = i := by
      simp [firstFreeD, hi]
    rw [hD]
    refine ⟨hi, ?_⟩
    simp [waitForSpot, if_neg hsem, if_pos hq, hi]

/-- Witness for C4: after one `enterQueue` on a fresh lot, queue slot 0 is
held and ten spot tokens are available, so `waitForSpot 0` fires and grants
spot 0. -/
theorem c4_waitForSpot_changes_witness :
    firstFree ((enterQueue initialLot).2).spotOccupied
      = some (firstFreeD ((enterQueue initialLot).2).spotOccupied) ∧
    waitForSpot 0 (enterQueue initialLot).2 =
      some ((firstFreeD ((enterQueue initialLot).2).spotOccupied : Int),
        { spotSem := ((enterQueue initialLot).2).spotSem - 1
          queueSem := ((enterQueue initialLot).2).queueSem + 1
          occupiedSpots := ((enterQueue initialLot).2).occupiedSpots + 1
          waitingCount := ((enterQueue initialLot).2).waitingCount - 1
          spotOccupied := ((enterQueue initialLot).2).spotOccupied.set
            (firstFreeD ((enterQueue initialLot).2).spotOccupied) true
          queueSlotOccupied := ((enterQueue initialLot).2).queueSlotOccupied.set
            (0 : Int).toNat false }) :=
  (c4_waitForSpot_changes (enterQueue initialLot).2 0
    (by decide) (by decide) (by decide)).2 (by decide)

/-! ## Claim C5: the park decision -/
/-- C5 counterexample: with random draw `1` (odd, so the spec's
`rand() % 2 == 0` gate would refuse), a direct-route CAR holding a lot
reference still attempts parking in `src/vehicle.cpp` — the code's guard is
not gated by any random choice. -/
theorem c5_park_decision_counterexample :
    localParkAttempt true .CAR 1 = true ∧ localParkAttemptSpec true .CAR 1 = false := by
  decide

/-- C5 (amended): in `src/vehicle.cpp` only CAR or BIKE actors ever attempt
parking, and any eligible actor holding a lot reference that reaches the
decision point always attempts parking — direct-route (local) and
commuter/cross-route actors run the identical guard; no random choice is
consulted.  (The random gate described by the spec exists only in the
legacy monolith `src/simulation.cpp`.) -/
theorem c5_park_decision (hasLot : Bool) (t : VehicleType) (r : Nat) :
    (localParkAttempt hasLot t r = true ↔
      hasLot = true ∧ (t = .CAR ∨ t = .BIKE)) ∧
    localParkAttempt hasLot t r = commuterParkAttempt hasLot t ∧
    (commuterParkAttempt hasLot t = true ↔
      hasLot = true ∧ (t = .CAR ∨ t = .BIKE)) := by
  cases hasLot <;> cases t <;>
    simp [localParkAttempt, commuterParkAttempt, willPark]

theorem lookupVehicle_storeVehicle (m : List (Int × VehicleState))
    (v : VehicleState) : lookupVehicle (storeVehicle m v) v.id = some v := by
  simp [lookupVehicle, storeVehicle, List.find?]

/-- C7: a `VEHICLE_UPDATE` frame written with intact magic and exact length
reconstructs the identical vehicle state on read (it is stored verbatim in
the visualizer's map under its id), while a frame whose read is short or
whose magic differs from `MSG_MAGIC` is discarded whole — the visualizer
state is untouched — and removing such a frame from a stream leaves the
processing of every other frame, before and after it, unchanged. -/
theorem c7_frame_roundtrip (sideId : Int) (st : VisState) (vs : VehicleState)
    (f : RawFrame) (pre post : List RawFrame)
    (hbad : f.len ≠ msgSize ∨ f.magic ≠ MSG_MAGIC) :
    processFrame sideId st (writeVehicleFrame vs)
      = { st with vehicles := storeVehicle st.vehicles vs } ∧
    lookupVehicle (processFrame sideId st (writeVehicleFrame vs)).vehicles vs.id
      = some vs ∧
    processFrame sideId st f = st ∧
    processStream sideId st (pre ++ f :: post) = processStream sideId st (pre ++ post) := by
  have hgood : processFrame sideId st (writeVehicleFrame vs)
      = { st with vehicles := storeVehicle st.vehicles vs } := by
    simp [processFrame, writeVehicleFrame]
  have hdrop : ∀ st' : VisState, processFrame sideId st' f = st' := by
    intro st'
    unfold processFrame
    rw [if_neg]
    intro hc
    rcases hbad with h | h
    · exact h hc.1
    · exact h hc.2
  refine ⟨hgood, ?_, hdrop st, ?_⟩
  · rw [hgood]
    exact lookupVehicle_storeVehicle st.vehicles vs
  · unfold processStream
    rw [List.foldl_append, List.foldl_append, List.foldl_cons, hdrop]

/-- Witness for C7: a concrete vehicle payload round-trips, and a concrete
magic-corrupted frame is dropped without disturbing its neighbours. -/
theorem c7_frame_roundtrip_witness :
    lookupVehicle
      (processFrame 10
        { vehicles := [], light := .RED, parkingQueueCount := 0 }
        (writeVehicleFrame
          { id := 3, x := 1, y := 2, colorR := 0, colorG := 255, colorB := 0,
            isActive := true, isParked := false, isInQueue := false,
            queueIndex := -1, isLeftParking := false, vtype := .CAR })).vehicles 3
      = some { id := 3, x := 1, y := 2, colorR := 0, colorG := 255, colorB := 0,
               isActive := true, isParked := false, isInQueue := false,
               queueIndex := -1, isLeftParking := false, vtype := .CAR } ∧
    processFrame 10 { vehicles := [], light := .RED, parkingQueueCount := 0 }
      { len := msgSize, magic := 0,
        payload := .light { intersectionId := 10, state := .GREEN } }
      = { vehicles := [], light := .RED, parkingQueueCount := 0 } := by
  have h := c7_frame_roundtrip 10
    { vehicles := [], light := .RED, parkingQueueCount := 0 }
    { id := 3, x := 1, y := 2, colorR := 0, colorG := 255, colorB := 0,
      isActive := true, isParked := false, isInQueue := false,
      queueIndex := -1, isLeftParking := false, vtype := .CAR }
    { len := msgSize, magic := 0,
      payload := .light { intersectionId := 10, state := .GREEN } }
    [] [] (by decide)
  exact ⟨h.2.1, h.2.2.1⟩

/-! ## Claim C10: sendUpdate also emits a PARKING_UPDATE -/
/-- C10: every `sendUpdate` call by a vehicle holding a parking-lot
reference writes exactly two frames — the `VEHICLE_UPDATE` immediately
followed by a `PARKING_UPDATE` carrying the lot's current `waitingCount`
and intersection id 11 when the vehicle uses the left lot, 10 otherwise —
and feeding the pair to the matching visualizer pipe stores the vehicle
state and sets that pipe's parking-queue counter to the lot's
`waitingCount`.  Since every movement tick of every actor loop calls
`sendUpdate`, parking telemetry flows on every tick, not only at the end of
each GREEN phase. -/
theorem c10_sendUpdate_parking (v : VehicleM) (l : LotState) (parked : Bool)
    (st : VisState) :
    sendUpdate v (some l) parked =
      [{ len := msgSize, magic := MSG_MAGIC,
         payload := .vehicle (mkVehicleState v parked) },
       { len := msgSize, magic := MSG_MAGIC,
         payload := .parking { intersectionId := if v.isLeftParking then 11 else 10,
                               waitingCount := getWaitingCount l } }] ∧
    processStream (if v.isLeftParking then 11 else 10) st (sendUpdate v (some l) parked)
      = { vehicles := storeVehicle st.vehicles (mkVehicleState v parked),
          light := st.light,
          parkingQueueCount := l.waitingCount } := by
  refine ⟨rfl, ?_⟩
  by_cases h : v.isLeftParking <;>
    simp [h, processStream, sendUpdate, processFrame, getWaitingCount]

theorem enterQueue_fst_range (s : LotState)
    (h : s.queueSlotOccupied.length = PARKING_QUEUE_SIZE) :
    (enterQueue s).1 = -1 ∨
      (0 ≤ (enterQueue s).1 ∧ (enterQueue s).1 < (PARKING_QUEUE_SIZE : Int)) := by
  unfold enterQueue
  by_cases hq : s.queueSem = 0
  · simp [hq]
  · simp only [if_neg hq]
    cases hf : firstFree s.queueSlotOccupied with
    | none => simp
    | some i =>
      obtain ⟨hlt, -, -⟩ := firstFree_spec _ _ hf
      right
      rw [h] at hlt
      constructor
      · simp
      · simpa using hlt

theorem fieldsCoherent_notQueued (lot : LotState) (p a : Bool) :
    fieldsCoherent lot ⟨false, -1, p, a⟩ := by
  constructor
  · simp
  · intro h
    simp at h

theorem fieldsCoherent_queued (lot : LotState)
    (hlen : lot.queueSlotOccupied.length = PARKING_QUEUE_SIZE)
    (hq : (enterQueue lot).1 ≠ -1) :
    fieldsCoherent lot ⟨true, (enterQueue lot).1, false, true⟩ := by
  rcases enterQueue_fst_range lot hlen with h | ⟨h0, h5⟩
  · exact absurd h hq
  · exact ⟨by simpa using hq, fun _ => ⟨h0, h5, rfl⟩⟩

theorem mem_parkPhase_coherent (lot : LotState) (b c d e : Nat)
    (f : QueueFields)
    (hlen : lot.queueSlotOccupied.length = PARKING_QUEUE_SIZE)
    (hf : f ∈ parkPhaseStates lot b c d e) : fieldsCoherent lot f := by
  unfold parkPhaseStates at hf
  by_cases hq : (enterQueue lot).1 = -1
  · simp [hq, List.mem_replicate] at hf
    rcases hf with ⟨-, rfl⟩
    exact fieldsCoherent_notQueued lot false true
  · simp [hq, List.mem_append, List.mem_replicate, List.mem_singleton] at hf
    rcases hf with ⟨-, rfl⟩ | ⟨-, rfl⟩ | ⟨-, rfl⟩ | rfl | ⟨-, rfl⟩
    · exact fieldsCoherent_notQueued lot false true
    · exact fieldsCoherent_queued lot hlen hq
    · exact fieldsCoherent_notQueued lot false true
    · exact fieldsCoherent_notQueued lot true true
    · exact fieldsCoherent_notQueued lot false true

/-- C9: at every emission point of both actor thread functions the
queue-membership fields are coherent — `isInQueue` is false iff
`queueIndex` is `-1`, and when `isInQueue` holds, `queueIndex` is exactly
the value the successful `enterQueue` call returned, in `0..4`; moreover
the `VEHICLE_UPDATE` frame `sendUpdate` emits at such a point copies those
two fields verbatim into the payload, so every emitted frame is coherent
too. -/
theorem c9_queue_fields_coherent (t : VehicleType) (hasLot : Bool)
    (lot : LotState) (m1 m2 m3 m4 m5 m6 n1 n2 n3 n4 : Nat)
    (f : QueueFields) (v : VehicleM) (parked : Bool) (optLot : Option LotState)
    (hlen : lot.queueSlotOccupied.length = PARKING_QUEUE_SIZE)
    (hf : f ∈ localActorStates t hasLot lot m1 m2 m3 m4 m5 m6 ∨
          f ∈ commuterActorStates t hasLot lot n1 n2 n3 m2 m3 m4 m5 n4)
    (hv : v.isInQueue = f.inQueue ∧ v.queueIndex = f.queueIdx) :
    fieldsCoherent lot f ∧
    (sendUpdate v optLot parked).head? =
      some { len := msgSize, magic := MSG_MAGIC,
             payload := .vehicle (mkVehicleState v parked) } ∧
    (mkVehicleState v parked).isInQueue = f.inQueue ∧
    (mkVehicleState v parked).queueIndex = f.queueIdx := by
  refine ⟨?_, rfl, hv.1, hv.2⟩
  rcases hf with hf | hf
  · unfold localActorStates at hf
    rcases List.mem_append.mp hf with hf | h
    case inr =>
      rw [List.mem_singleton.mp h]
      exact fieldsCoherent_notQueued lot false false
    rcases List.mem_append.mp hf with hf | h
    case inr =>
      rw [List.eq_of_mem_replicate h]
      exact fieldsCoherent_notQueued lot false true
    rcases List.mem_append.mp hf with h | hpark
    · rw [List.eq_of_mem_replicate h]
      exact fieldsCoherent_notQueued lot false true
    · by_cases hw : willPark hasLot t = true
      · rw [if_pos hw] at hpark
        exact mem_parkPhase_coherent lot m2 m3 m4 m5 f hlen hpark
      · rw [if_neg hw] at hpark
        simp at hpark
  · unfold commuterActorStates at hf
    rcases List.mem_append.mp hf with hf | h
    case inr =>
      rw [List.mem_singleton.mp h]
      exact fieldsCoherent_notQueued lot false false
    rcases List.mem_append.mp hf with hf | h
    case inr =>
      rw [List.eq_of_mem_replicate h]
      exact fieldsCoherent_notQueued lot false true
    rcases List.mem_append.mp hf with hf | hpark
    case inr =>
      by_cases hw : willPark hasLot t = true
      · rw [if_pos hw] at hpark
        exact mem_parkPhase_coherent lot m2 m3 m4 m5 f hlen hpark
      · rw [if_neg hw] at hpark
        simp at hpark
    rcases List.mem_append.mp hf with hf | h
    case inr =>
      rw [List.eq_of_mem_replicate h]
      exact fieldsCoherent_notQueued lot false true
    rcases List.mem_append.mp hf with h | h
    · rw [List.eq_of_mem_replicate h]
      exact fieldsCoherent_notQueued lot false true
    · rw [List.eq_of_mem_replicate h]
      exact fieldsCoherent_notQueued lot false true

/-- Witness for C9: the queued frame of a CAR on a fresh lot, whose
`enterQueue` call returns slot 0. -/
theorem c9_queue_fields_coherent_witness :
    fieldsCoherent initialLot ⟨true, 0, false, true⟩ ∧
    (mkVehicleState
      { id := 1, vtype := .CAR, x := 0, y := 0, active := true,
        isInQueue := true, queueIndex := 0, isLeftParking := false } true).isInQueue
      = true := by
  have h := c9_queue_fields_coherent .CAR true initialLot 1 1 1 1 1 1 1 1 1 1
    ⟨true, 0, false, true⟩
    { id := 1, vtype := .CAR, x := 0, y := 0, active := true,
      isInQueue := true, queueIndex := 0, isLeftParking := false }
    true none (by decide) (Or.inl (by decide)) ⟨rfl, rfl⟩
  exact ⟨h.1, h.2.2.1⟩

theorem countHold_append (a b : List F11Event) :
    countHold (a ++ b) = countHold a + countHold b := by
  induction a with
  | nil => simp [countHold]
  | cons e r ih =>
    simp [countHold, ih]
    omega

theorem redSlices_count (n : Nat) (b : List CoordMsg) :
    countHold (redSlices n b).1 + countEmergency (redSlices n b).2
      = countEmergency b := by
  induction n generalizing b with
  | zero => simp [redSlices, countHold]
  | succ k ih =>
    cases b with
    | nil =>
      have h := ih []
      simp only [countEmergency] at h
      simp [redSlices, countHold, countEmergency]
      omega
    | cons m tail =>
      by_cases hm : m = .emergencyApproaching
      · subst hm
        simp [redSlices, countHold, countEmergency]
      · have h := ih tail
        simp [redSlices, hm, countHold, countEmergency]
        omega

theorem redSlices_length (n : Nat) (b : List CoordMsg) :
    (redSlices n b).2.length ≤ b.length := by
  induction n generalizing b with
  | zero => simp [redSlices]
  | succ k ih =>
    cases b with
    | nil => simpa [redSlices] using ih []
    | cons m tail =>
      by_cases hm : m = .emergencyApproaching
      · subst hm
        simp [redSlices]
      · simp only [redSlices, if_neg hm, List.length_cons]
        exact le_trans (ih tail) (by omega)

theorem f11Iter_buf (buf : List CoordMsg) :
    (f11Iter buf).2 = (redSlices 6 buf.tail).2 := by
  cases buf with
  | nil => rfl
  | cons m tail => cases m <;> rfl

theorem f11Iter_count (buf : List CoordMsg) :
    countHold (f11Iter buf).1 + countEmergency (f11Iter buf).2
      = countEmergency buf := by
  cases buf with
  | nil =>
    simp [f11Iter, countHold_append, countHold, countEmergency]
  | cons m tail =>
    have h := redSlices_count 6 tail
    cases m with
    | emergencyApproaching =>
      simp [f11Iter, countHold_append, countHold, countEmergency]
      omega
    | clearIntersection =>
      simp [f11Iter, countHold_append, countHold, countEmergency]
      omega

theorem f11Run_count (n : Nat) (buf : List CoordMsg) (hn : buf.length ≤ n) :
    countHold (f11Run n buf) = countEmergency buf := by
  induction n generalizing buf with
  | zero =>
    have hb : buf = [] := List.length_eq_zero.mp (Nat.le_zero.mp hn)
    subst hb
    simp [f11Run, countHold, countEmergency]
  | succ k ih =>
    simp only [f11Run, countHold_append]
    have hlen : (f11Iter buf).2.length ≤ k := by
      rw [f11Iter_buf]
      cases buf with
      | nil =>
        have h1 := redSlices_length 6 ([] : List CoordMsg).tail
        simp only [List.tail_nil, List.length_nil] at h1
        simp only [List.tail_nil]
        omega
      | cons m tail =>
        have h1 := redSlices_length 6 tail
        simp only [List.tail_cons]
        simp only [List.length_cons] at hn
        omega
    rw [ih _ hlen]
    exact f11Iter_count buf

/-! ## Claim C6: emergency preemption -/
/-- C6 counterexample: with two `EMERGENCY_APPROACHING` signals in the
channel — the second having arrived while the first 5-second hold was in
progress (the hold reads nothing, so the signal waits in the pipe) — the
controller performs TWO full preemption holds, the second one after the
first completed and after RED had already been re-published.  The second
signal is queued and later triggers its own preemption; it is not a no-op
refresh (which would give exactly one hold). -/
theorem c6_preemption_counterexample :
    f11Run 1 [.emergencyApproaching, .emergencyApproaching] =
      [.lightGreen, .hold5, .lightRed, .redSlice, .lightGreen, .hold5,
       .lightGreen, .parkingUpdate] ∧
    countHold (f11Run 1 [.emergencyApproaching, .emergencyApproaching]) = 2 := by
  constructor <;> rfl

/-- C6 (amended): on reading `EMERGENCY_APPROACHING` the controller
immediately forces its gate to GREEN (publishing the change), holds GREEN
for the fixed 5 s regardless of the phase timer, and then resumes normal
RED/GREEN cycling; the hold itself consumes no channel messages, so a
signal arriving during an active hold stays queued and is processed
afterwards as a fresh preemption — over any run long enough to drain the
channel, every emergency signal produces exactly one 5 s hold, none is
dropped or coalesced. -/
theorem c6_preemption (rest buf : List CoordMsg) (n : Nat)
    (hn : buf.length ≤ n) :
    f11Iter (.emergencyApproaching :: rest) =
      ([.lightGreen, .hold5] ++ [.lightRed] ++ (redSlices 6 rest).1 ++
        [.lightGreen, .parkingUpdate], (redSlices 6 rest).2) ∧
    countHold (f11Run n buf) = countEmergency buf := by
  exact ⟨rfl, f11Run_count n buf hn⟩

/-- Witness for C6: one pending emergency, drained within two iterations. -/
theorem c6_preemption_witness :
    countHold (f11Run 2 [.emergencyApproaching]) =
      countEmergency [CoordMsg.emergencyApproaching] :=
  (c6_preemption [] [.emergencyApproaching] 2 (by decide)).2

theorem sqrt_scale (a b c : ℝ) (hc : 0 ≤ c) :
    Real.sqrt ((a * c) * (a * c) + (b * c) * (b * c))
      = c * Real.sqrt (a * a + b * b) := by
  have h : (a * c) * (a * c) + (b * c) * (b * c) = (c * c) * (a * a + b * b) := by
    ring
  rw [h, Real.sqrt_mul (mul_self_nonneg c), Real.sqrt_mul_self hc]

/-! ## Claim C8: the movement primitive -/
/-- C8: for every position, target and (positive) speed: when the
straight-line distance to the target is below `speed` the position snaps
exactly to the target and the move reports terminal `true`; otherwise the
move reports `false` and the position advances exactly `speed` units along
the straight-line vector toward the target — the new position is
`current + (speed/dist)·(target − current)`, the distance travelled is
exactly `speed`, and the remaining distance to the target is exactly
`dist − speed`. -/
theorem c8_moveTowards (px py tx ty speed : ℝ) (hs : 0 < speed) :
    (euclid px py tx ty < speed →
      moveTowards px py tx ty speed = (tx, ty, true)) ∧
    (speed ≤ euclid px py tx ty →
      (moveTowards px py tx ty speed).2.2 = false ∧
      (moveTowards px py tx ty speed).1
        = px + (tx - px) * (speed / euclid px py tx ty) ∧
      (moveTowards px py tx ty speed).2.1
        = py + (ty - py) * (speed / euclid px py tx ty) ∧
      euclid px py (moveTowards px py tx ty speed).1
        (moveTowards px py tx ty speed).2.1 = speed ∧
      euclid (moveTowards px py tx ty speed).1
        (moveTowards px py tx ty speed).2.1 tx ty
        = euclid px py tx ty - speed) := by
  set d := euclid px py tx ty with hd
  have hdef : moveTowards px py tx ty speed =
      if d < speed then (tx, ty, true)
      else (px + (tx - px) * (speed / d), py + (ty - py) * (speed / d), false) := by
    unfold moveTowards euclid at *
    by_cases h : Real.sqrt ((tx - px) * (tx - px) + (ty - py) * (ty - py)) < speed <;>
      simp [h, hd, mul_comm, div_eq_mul_inv]
  constructor
  · intro h
    rw [hdef, if_pos h]
  · intro h
    have hnot : ¬ d < speed := not_lt.mpr h
    have hdpos : 0 < d := lt_of_lt_of_le hs h
    have hdne : d ≠ 0 := ne_of_gt hdpos
    have hratio0 : 0 ≤ speed / d := le_of_lt (div_pos hs hdpos)
    have hratio1 : speed / d ≤ 1 := (div_le_one hdpos).mpr h
    rw [hdef, if_neg hnot]
    refine ⟨rfl, rfl, rfl, ?_, ?_⟩
    · show Real.sqrt ((px + (tx - px) * (speed / d) - px) *
          (px + (tx - px) * (speed / d) - px) +
          (py + (ty - py) * (speed / d) - py) *
          (py + (ty - py) * (speed / d) - py)) = speed
      have e1 : px + (tx - px) * (speed / d) - px = (tx - px) * (speed / d) := by ring
      have e2 : py + (ty - py) * (speed / d) - py = (ty - py) * (speed / d) := by ring
      rw [e1, e2, sqrt_scale _ _ _ hratio0]
      rw [show Real.sqrt ((tx - px) * (tx - px) + (ty - py) * (ty - py)) = d from rfl]
      field_simp
    · show Real.sqrt ((tx - (px + (tx - px) * (speed / d))) *
          (tx - (px + (tx - px) * (speed / d))) +
          (ty - (py + (ty - py) * (speed / d))) *
          (ty - (py + (ty - py) * (speed / d)))) = d - speed
      have e1 : tx - (px + (tx - px) * (speed / d)) = (tx - px) * (1 - speed / d) := by
        ring
      have e2 : ty - (py + (ty - py) * (speed / d)) = (ty - py) * (1 - speed / d) := by
        ring
      rw [e1, e2, sqrt_scale _ _ _ (by linarith)]
      rw [show Real.sqrt ((tx - px) * (tx - px) + (ty - py) * (ty - py)) = d from rfl]
      field_simp

/-- Witness for C8 at the concrete inputs `(0,0) → (3,4)` where the
distance is 5: speed 10 snaps to the target, speed 1 keeps moving. -/
theorem c8_moveTowards_witness :
    moveTowards 0 0 3 4 10 = ((3 : ℝ), (4 : ℝ), true) ∧
    (moveTowards 0 0 3 4 1).2.2 = false := by
  have hd : euclid 0 0 3 4 = 5 := by
    unfold euclid
    rw [show ((3 : ℝ) - 0) * ((3 : ℝ) - 0) + ((4 : ℝ) - 0) * ((4 : ℝ) - 0)
      = 5 * 5 by norm_num]
    exact Real.sqrt_mul_self (by norm_num)
  have h10 := c8_moveTowards 0 0 3 4 10 (by norm_num)
  have h1 := c8_moveTowards 0 0 3 4 1 (by norm_num)
  exact ⟨h10.1 (by rw [hd]; norm_num), (h1.2 (by rw [hd]; norm_num)).1⟩

end TrafficSim
